import Mathlib

/-!
Verification of the AI-Voice-Agent streaming conversation pipeline.

The Python sources are shallowly embedded:
  * `src/src/utils/session.py` (SessionManager) as association-list
    operations over `Registry`; wall-clock datetimes become rationals
    measured in minutes, so `timedelta(minutes=m)` comparisons are plain
    subtraction.
  * `src/src/llm.py` (LanguageModel._generate_openai_response) as a pure
    store transformer, with the remote chat-completion reply injected as a
    parameter.
  * `src/src/audio.py` (AudioProcessor) over real-valued samples.
  * the WebSocket orchestrator loop of `src/app.py` as a step function over
    scripted per-frame collaborator outcomes.
-/

set_option maxHeartbeats 1000000

/-! ## Python dict primitives

Python dicts are insertion ordered with unique keys; we embed the values the
code stores in them as association lists.  `dictGet` is `d.get(k)` /
`d[k]` after a `k in d` test, `dictSet` is `d[k] = v` (updates in place when
the key exists, appends otherwise). -/

/-- Embedding of `d.get(key)` on a Python dict. -/
def dictGet {α : Type} : List (String × α) → String → Option α
  | [], _ => none
  | (k, v) :: rest, key => if k = key then some v else dictGet rest key

/-- Embedding of `d[key] = v` on a Python dict. -/
def dictSet {α : Type} : List (String × α) → String → α → List (String × α)
  | [], key, v => [(key, v)]
  | (k, w) :: rest, key, v =>
      if k = key then (k, v) :: rest else (k, w) :: dictSet rest key v

/-! ## Session registry: src/src/utils/session.py -/

/-- One record of `SessionManager.sessions`
(src/src/utils/session.py lines 13-17). -/
structure SessionData where
  created_at : ℚ
  last_activity : ℚ
  is_active : Bool
deriving DecidableEq, Repr

/-- The `SessionManager.sessions` dict. -/
abbrev Registry := List (String × SessionData)

/-- `create_session` (lines 10-18); the fresh uuid4 identifier and the
current time are passed in explicitly. -/
def create_session (reg : Registry) (sid : String) (now : ℚ) : Registry :=
  dictSet reg sid ⟨now, now, true⟩

/-- `update_session` (lines 20-23): refresh `last_activity` when the id is
known, otherwise do nothing. -/
def update_session (reg : Registry) (sid : String) (now : ℚ) : Registry :=
  match dictGet reg sid with
  | some d => dictSet reg sid { d with last_activity := now }
  | none => reg

/-- `end_session` (lines 25-29): clear the active flag when the id is known,
otherwise do nothing. -/
def end_session (reg : Registry) (sid : String) : Registry :=
  match dictGet reg sid with
  | some d => dictSet reg sid { d with is_active := false }
  | none => reg

/-- `cleanup_inactive_sessions` (lines 31-44): delete every inactive session
whose `now - last_activity` exceeds `maxAge` minutes. -/
def cleanup_inactive_sessions (reg : Registry) (now maxAge : ℚ) : Registry :=
  reg.filter fun p => !(!p.2.is_active && decide (maxAge < now - p.2.last_activity))

/-- `get_active_sessions_count` (lines 46-48). -/
def get_active_sessions_count (reg : Registry) : ℕ :=
  (reg.filter fun p => p.2.is_active).length

/-! A timed trace of registry operations.  Every event carries the wall-clock
time at which it happens; `end_session` ignores that time (it records
nothing), which is exactly the behaviour under scrutiny in the sweep
claims. -/

/-- One timed call into the `SessionManager`. -/
inductive RegOp
  | create (sid : String) (t : ℚ)
  | touch (sid : String) (t : ℚ)
  | close (sid : String) (t : ℚ)
  | sweep (t : ℚ) (maxAge : ℚ)
deriving DecidableEq, Repr

/-- Interpret one timed call; `close` is `end_session`, which ignores the
wall-clock time of the call. -/
def applyRegOp (reg : Registry) : RegOp → Registry
  | .create sid t => create_session reg sid t
  | .touch sid t => update_session reg sid t
  | .close sid _t => end_session reg sid
  | .sweep t maxAge => cleanup_inactive_sessions reg t maxAge

/-- Interpret a timed trace of `SessionManager` calls, oldest first. -/
def applyRegOps (reg : Registry) (ops : List RegOp) : Registry :=
  ops.foldl applyRegOp reg

/-! ## Conversation history: src/src/llm.py -/

/-- One chat message, a dict `{"role": role, "content": content}`. -/
structure Turn where
  role : String
  content : String
deriving DecidableEq, Repr

/-- A per-session history list. -/
abbrev History := List Turn

/-- The `LanguageModel.conversation_history` dict. -/
abbrev LLMStore := List (String × History)

/-- The history update performed inside `_generate_openai_response`
(src/src/llm.py lines 66-76): extend by the user and assistant turns, then
keep only the last 10 messages when the list exceeds 10. -/
def exchangeHistory (history : History) (userInput replyText : String) : History :=
  let extended := history ++ [⟨"user", userInput⟩, ⟨"assistant", replyText⟩]
  if 10 < extended.length then extended.drop (extended.length - 10) else extended

/-- `_generate_openai_response` (src/src/llm.py lines 35-78) on the success
path: the chat-completion reply text is injected as `replyText`.  Returns
the reply together with the mutated `conversation_history` store. -/
def generate_openai_response (store : LLMStore) (sid : String)
    (userInput replyText : String) : String × LLMStore :=
  let history := (dictGet store sid).getD []
  (replyText, dictSet store sid (exchangeHistory history userInput replyText))

/-- A sequence of completed exchanges for one session, applied oldest
first; each pair is (user input, injected assistant reply). -/
def runExchanges (sid : String) (store : LLMStore)
    (xs : List (String × String)) : LLMStore :=
  xs.foldl (fun st p => (generate_openai_response st sid p.1 p.2).2) store

/-! ## Audio conditioning: src/src/audio.py

Float32 samples are idealized as real numbers; the byte buffer handed to
`np.frombuffer` is represented by its length in bytes together with a
decoding function giving the i-th float32 sample it contains. -/

/-- The element size of `np.float32` in bytes. -/
def sampleWidth : ℕ := 4

/-- The noise-gate threshold of `_reduce_noise` (src/src/audio.py line 42). -/
def noiseThreshold : ℝ := 0.01

/-- The AGC target RMS of `_apply_agc` (src/src/audio.py line 48). -/
def targetRms : ℝ := 0.2

/-- `np.clip(x, -1.0, 1.0)` on one sample. -/
noncomputable def clipSample (x : ℝ) : ℝ := max (-1) (min 1 x)

/-- `_reduce_noise` (src/src/audio.py lines 39-44) on a writable buffer:
zero every sample whose magnitude is below the threshold.  (The buffers
`process` actually hands it are read-only views of the received `bytes`,
on which the in-place write raises instead; see `process`.) -/
noncomputable def reduce_noise (xs : List ℝ) : List ℝ :=
  xs.map fun x => if |x| < noiseThreshold then 0 else x

/-- `np.mean(audio_array**2)`. -/
noncomputable def meanSquare (xs : List ℝ) : ℝ :=
  ((xs.map fun x => x ^ 2).sum) / xs.length

/-- `np.sqrt(np.mean(audio_array**2))`, the buffer's RMS loudness. -/
noncomputable def rms (xs : List ℝ) : ℝ := Real.sqrt (meanSquare xs)

/-- `_apply_agc` (src/src/audio.py lines 46-55): when the RMS is positive,
scale every sample by `targetRms / rms`; always clip to [-1, 1]. -/
noncomputable def apply_agc (xs : List ℝ) : List ℝ :=
  let gained := if 0 < rms xs then xs.map fun x => x * (targetRms / rms xs) else xs
  gained.map clipSample

/-- `AudioProcessor.process` (src/src/audio.py lines 17-37) for a configured
channel count, over the byte buffer received from the WebSocket; the errors
carry the `ValueError` messages numpy raises (app.py wraps any of them as
its audio-stage error, and the spec's taxonomy names the shape failures
`MalformedAudioError`).  `np.frombuffer` rejects a byte length that does
not divide into whole float32 samples, the stereo `reshape(-1, 2)` rejects
an odd sample count, and — because `np.frombuffer` over `bytes` yields a
read-only array (as does the reshape view of it) — the masked in-place
assignment of `_reduce_noise` (line 43) raises on every buffer that passes
both shape checks, so the conditioner never returns processed audio. -/
def process (channels : ℕ) (byteLen : ℕ) (_decode : ℕ → ℝ) :
    Except String (List ℝ) :=
  if byteLen % sampleWidth ≠ 0 then
    .error "buffer size must be a multiple of element size"
  else if channels = 2 ∧ (byteLen / sampleWidth) % 2 ≠ 0 then
    .error "cannot reshape array"
  else
    .error "assignment destination is read-only"

/-- Whether an `Except` result is a success. -/
def exceptOk {ε α : Type} : Except ε α → Bool
  | .ok _ => true
  | .error _ => false

/-! ## The WebSocket orchestrator: src/app.py websocket_endpoint

The three remote collaborators (speech recognition, chat completion, voice
synthesis) and the audio processor are injected per frame as scripted
outcomes: each received frame carries what every stage would produce if it
were reached.  Reply audio is modelled as a byte list. -/

/-- A transcription result as used by the orchestrator (`transcript.text`,
`transcript.is_final` in src/app.py lines 106-114); the `SpeechRecognizer`
implementation file is absent from the sources, and the spec gives its
contract as `transcribe(conditionedAudio) -> {text, isFinal}`. -/
structure Transcript where
  text : String
  is_final : Bool
deriving DecidableEq, Repr

instance {ε α : Type} [DecidableEq ε] [DecidableEq α] :
    DecidableEq (Except ε α) := fun a b =>
  match a, b with
  | .ok x, .ok y =>
      if h : x = y then .isTrue (by rw [h])
      else .isFalse (by intro hc; cases hc; exact h rfl)
  | .ok _, .error _ => .isFalse (by intro hc; cases hc)
  | .error _, .ok _ => .isFalse (by intro hc; cases hc)
  | .error x, .error y =>
      if h : x = y then .isTrue (by rw [h])
      else .isFalse (by intro hc; cases hc; exact h rfl)

/-- Scripted collaborator outcomes for one received frame: what
`audio_processor.process`, `speech_recognizer.transcribe`, the chat
completion inside `language_model.generate_response`, and
`voice_synthesizer.synthesize` would each return for this frame.  Errors
carry the underlying exception message. -/
structure FrameScript where
  procRes : Except String Unit
  transRes : Except String Transcript
  genRes : Except String String
  synthRes : Except String (List ℕ)
deriving DecidableEq, Repr

/-- One client-to-server event inside the receive loop: a binary frame
arrives, or `asyncio.wait_for` times out after 30 s. -/
inductive Event
  | recv (fs : FrameScript)
  | timeout
deriving DecidableEq, Repr

/-- A server-to-client WebSocket message: binary reply audio from
`send_bytes`, or the JSON object from `send_json` — the code sends
`{"error": error_msg}`, so the modelled object has an error string and an
optional category field that the code never populates. -/
inductive Outgoing
  | audio (bytes : List ℕ)
  | errJson (error : String) (typeField : Option String)
deriving DecidableEq, Repr

/-- Whether a server-to-client message is an error payload. -/
def Outgoing.isErr : Outgoing → Bool
  | .audio _ => false
  | .errJson _ _ => true

/-- The processing stages of src/app.py lines 98-127, in pipeline order. -/
inductive Stage
  | conditioner
  | transcription
  | generation
  | synthesis
deriving DecidableEq, Repr

/-- The mutable state the endpoint touches: the session registry and the
language model's conversation-history store. -/
structure OrchState where
  registry : Registry
  llmStore : LLMStore
deriving DecidableEq, Repr

/-- Outcome of one pass through the loop body for a received frame
(src/app.py lines 98-130): either the loop continues (with the messages
sent for this frame) or an exception escapes the loop, wrapped with the
stage-identifying message of lines 102, 108, 118 and 124.  `invoked`
records which stages were actually reached. -/
inductive FrameOutcome
  | continueLoop (st : OrchState) (sent : List Outgoing) (invoked : List Stage)
  | failed (msg : String) (st : OrchState) (invoked : List Stage)
deriving DecidableEq, Repr

/-- The loop body of src/app.py lines 98-130 for one received frame: run the
audio processor, then transcription; on a final transcript run generation
(which mutates the history store) and synthesis and send the reply audio;
in every non-raising path finish with `update_session`. -/
def processFrame (sid : String) (now : ℚ) (st : OrchState) (fs : FrameScript) :
    FrameOutcome :=
  match fs.procRes with
  | .error e => .failed ("Audio processing failed: " ++ e) st [.conditioner]
  | .ok _ =>
    match fs.transRes with
    | .error e =>
        .failed ("Speech recognition failed: " ++ e) st
          [.conditioner, .transcription]
    | .ok t =>
      if t.is_final then
        match fs.genRes with
        | .error e =>
            .failed ("Language model processing failed: " ++ e) st
              [.conditioner, .transcription, .generation]
        | .ok reply =>
          let store2 := (generate_openai_response st.llmStore sid t.text reply).2
          match fs.synthRes with
          | .error e =>
              .failed ("Voice synthesis failed: " ++ e) ⟨st.registry, store2⟩
                [.conditioner, .transcription, .generation, .synthesis]
          | .ok audioResp =>
              .continueLoop
                ⟨update_session st.registry sid now, store2⟩
                [.audio audioResp]
                [.conditioner, .transcription, .generation, .synthesis]
      else
        .continueLoop ⟨update_session st.registry sid now, st.llmStore⟩ []
          [.conditioner, .transcription]

/-- The stages reached while handling one received frame. -/
def invokedStages (sid : String) (now : ℚ) (st : OrchState) (fs : FrameScript) :
    List Stage :=
  match processFrame sid now st fs with
  | .continueLoop _ _ inv => inv
  | .failed _ _ inv => inv

/-- What the connection ends as: still waiting for frames (script
exhausted), or closed with a WebSocket close code after the `finally`
block's `end_session` ran. -/
inductive ConnStatus
  | stillOpen (st : OrchState)
  | closed (code : ℕ) (st : OrchState)
deriving DecidableEq, Repr

/-- The whole `websocket_endpoint` receive loop (src/app.py lines 90-151)
over a timed script of events, returning every server-to-client message in
order and the terminal status.  A timeout closes with code 1000 and sends
nothing; an escaped stage exception sends the single `{"error": msg}`
payload and closes with code 1011; both paths run `end_session` in the
`finally` block. -/
def runConn (sid : String) (st : OrchState) :
    List (ℚ × Event) → List Outgoing × ConnStatus
  | [] => ([], .stillOpen st)
  | (now, ev) :: rest =>
    match ev with
    | .timeout => ([], .closed 1000 ⟨end_session st.registry sid, st.llmStore⟩)
    | .recv fs =>
      match processFrame sid now st fs with
      | .failed msg st2 _ =>
          ([.errJson msg none],
           .closed 1011 ⟨end_session st2.registry sid, st2.llmStore⟩)
      | .continueLoop st2 sent _ =>
          let r := runConn sid st2 rest
          (sent ++ r.1, r.2)

/-- A frame script none of whose reached stages raises: conditioning and
transcription succeed, and when the transcript is final, generation and
synthesis succeed too. -/
def FrameScript.benign (fs : FrameScript) : Bool :=
  exceptOk fs.procRes &&
    match fs.transRes with
    | .error _ => false
    | .ok t => !t.is_final || (exceptOk fs.genRes && exceptOk fs.synthRes)

/-- An event that cannot raise a stage exception. -/
def Event.benign : Event → Bool
  | .timeout => true
  | .recv fs => fs.benign

/-! ## Health aggregation: src/app.py health_check -/

/-- One entry of `components_status` as the verdict reads it: every entry in
the code is a dict, and only an entry carrying a `"status"` key takes part
in the verdict, so an entry is represented by its optional status value. -/
structure ComponentReport where
  statusField : Option String
deriving DecidableEq, Repr

/-- The `all_healthy` reduction of src/app.py lines 167-171: every entry
that carries a `"status"` key must carry `"healthy"`; entries without the
key are skipped by the comprehension's filter. -/
def allHealthy (cs : List ComponentReport) : Bool :=
  cs.all fun c =>
    match c.statusField with
    | some s => s = "healthy"
    | none => true

/-- The overall verdict of src/app.py line 174. -/
def overallStatus (cs : List ComponentReport) : String :=
  if allHealthy cs then "healthy" else "degraded"

/-- `LanguageModel.health_check` / `VoiceSynthesizer.health_check`
(src/src/llm.py lines 89-94, src/src/voice.py lines 55-60): status is
`"healthy"` once initialized, `"not_initialized"` before.  Modelled from
the spec for the speech recognizer as well: src/speech.py is absent from
the sources, and the spec gives every collaborator the same
`healthCheck() -> \x7bstatus: healthy|not_initialized\x7d` contract. -/
def providerHealth (isInitialized : Bool) : ComponentReport :=
  ⟨some (if isInitialized then "healthy" else "not_initialized")⟩

/-- The `"sessions"` entry of `components_status` (src/app.py lines
161-163): `{"active_sessions": n}` carries no `"status"` key. -/
def sessionsReport (_activeCount : ℕ) : ComponentReport := ⟨none⟩

/-- The `/health` endpoint's verdict (src/app.py lines 156-177) as a
function of the three providers' initialization flags and the active
session count. -/
def healthCheckVerdict (speechInit llmInit voiceInit : Bool) (n : ℕ) : String :=
  overallStatus
    [providerHealth speechInit, providerHealth llmInit,
     providerHealth voiceInit, sessionsReport n]

/-! ## Concrete fixtures used by witnesses and counterexamples -/

/-- A registry holding one freshly created session `"s"`. -/
def regS : Registry := [("s", ⟨0, 0, true⟩)]

/-- Endpoint state at the start of a connection for session `"s"`. -/
def stS : OrchState := ⟨regS, []⟩

/-- An interim (non-final) recognition result. -/
def tNonFinal : Transcript := ⟨"partial words", false⟩

/-- A frame whose conditioning and transcription succeed with an interim
transcript; the generation and synthesis scripts are present but out of
reach. -/
def fsNonFinal : FrameScript := ⟨.ok (), .ok tNonFinal, .ok "unused", .ok [9]⟩

/-- A frame whose transcription collaborator raises `"boom"`. -/
def fsTransFail : FrameScript := ⟨.ok (), .error "boom", .ok "unused", .ok [9]⟩

/-- A fully successful final-transcript frame. -/
def fsFinalOk : FrameScript := ⟨.ok (), .ok ⟨"hello", true⟩, .ok "hi there", .ok [1, 2]⟩

/-- The session record of a session last touched at time 5 and since
ended. -/
def dEnded : SessionData := ⟨0, 5, false⟩

/-- A registry holding only that ended session. -/
def regEnded : Registry := [("s", dEnded)]

/-! # Theorems -/

/-! ## Dictionary lemmas -/

theorem dictGet_dictSet_self {α : Type} (d : List (String × α)) (k : String)
    (v : α) : dictGet (dictSet d k v) k = some v := by
  induction d with
  | nil => simp [dictSet, dictGet]
  | cons p rest ih =>
    obtain ⟨k0, v0⟩ := p
    by_cases h : k0 = k
    · simp [dictSet, dictGet, h]
    · simp [dictSet, dictGet, h, ih]

theorem dictGet_dictSet_ne {α : Type} (d : List (String × α)) (k j : String)
    (v : α) (hne : k ≠ j) : dictGet (dictSet d k v) j = dictGet d j := by
  induction d with
  | nil => simp [dictSet, dictGet, hne]
  | cons p rest ih =>
    obtain ⟨k0, v0⟩ := p
    by_cases h : k0 = k
    · subst h
      simp [dictSet, dictGet, hne]
    · by_cases hj : k0 = j
      · simp [dictSet, dictGet, h, hj, Ne.symm hne]
      · simp [dictSet, dictGet, h, hj, ih]

theorem dictSet_keys_of_mem {α : Type} (d : List (String × α)) (k : String)
    (v w : α) (h : dictGet d k = some w) :
    (dictSet d k v).map Prod.fst = d.map Prod.fst := by
  induction d with
  | nil => simp [dictGet] at h
  | cons p rest ih =>
    obtain ⟨k0, v0⟩ := p
    by_cases hk : k0 = k
    · simp [dictSet, hk]
    · simp [dictGet, hk] at h
      simp [dictSet, hk, ih h]

theorem dictGet_none_of_not_mem {α : Type} (d : List (String × α)) (k : String)
    (h : k ∉ d.map Prod.fst) : dictGet d k = none := by
  induction d with
  | nil => simp [dictGet]
  | cons p rest ih =>
    obtain ⟨k0, v0⟩ := p
    simp only [List.map_cons, List.mem_cons] at h
    push_neg at h
    have hk : k0 ≠ k := fun hc => h.1 hc.symm
    simp [dictGet, hk, ih h.2]

theorem dictGet_filter {α : Type} (p : String × α → Bool)
    (d : List (String × α)) (k : String) (v : α)
    (hnd : (d.map Prod.fst).Nodup) (h : dictGet d k = some v) :
    dictGet (d.filter p) k = if p (k, v) then some v else none := by
  induction d with
  | nil => simp [dictGet] at h
  | cons q rest ih =>
    obtain ⟨k0, v0⟩ := q
    simp only [List.map_cons, List.nodup_cons] at hnd
    by_cases hk : k0 = k
    · subst hk
      simp only [dictGet, if_pos rfl] at h
      cases h
      by_cases hp : p (k0, v) = true
      · simp [List.filter, hp, dictGet]
      · have hrest : dictGet (rest.filter p) k0 = none := by
          apply dictGet_none_of_not_mem
          intro hmem
          exact hnd.1 (by
            have hsub : (rest.filter p).map Prod.fst ⊆ rest.map Prod.fst := by
              intro a ha
              obtain ⟨q2, hq2, rfl⟩ := List.mem_map.mp ha
              exact List.mem_map_of_mem Prod.fst (List.mem_of_mem_filter hq2)
            exact hsub hmem)
        simp [List.filter, hp, hrest]
    · simp only [dictGet, if_neg hk] at h
      by_cases hp : p (k0, v0) = true
      · simp [List.filter, hp, dictGet, hk, ih hnd.2 h]
      · simp [List.filter, hp, ih hnd.2 h]

/-! ## Session registry lemmas -/

theorem end_session_lookup_self (reg : Registry) (sid : String)
    (d : SessionData) (h : dictGet reg sid = some d) :
    dictGet (end_session reg sid) sid
      = some ⟨d.created_at, d.last_activity, false⟩ := by
  simp [end_session, h, dictGet_dictSet_self]

theorem end_session_inactive (reg : Registry) (sid : String) (d : SessionData)
    (h : dictGet (end_session reg sid) sid = some d) : d.is_active = false := by
  unfold end_session at h
  cases he : dictGet reg sid with
  | none => rw [he] at h; rw [he] at h; cases h  -- dictGet reg sid = none, so result is none
  | some e =>
    rw [he] at h
    rw [dictGet_dictSet_self] at h
    cases h
    rfl

theorem end_session_keys (reg : Registry) (sid : String) :
    (end_session reg sid).map Prod.fst = reg.map Prod.fst := by
  unfold end_session
  cases he : dictGet reg sid with
  | none => rfl
  | some e => exact dictSet_keys_of_mem reg sid _ e he

theorem cleanup_lookup (reg : Registry) (sid : String) (d : SessionData)
    (now maxAge : ℚ) (hnd : (reg.map Prod.fst).Nodup)
    (h : dictGet reg sid = some d) :
    dictGet (cleanup_inactive_sessions reg now maxAge) sid
      = if d.is_active = false ∧ maxAge < now - d.last_activity
        then none else some d := by
  unfold cleanup_inactive_sessions
  rw [dictGet_filter _ reg sid d hnd h]
  by_cases hcond : d.is_active = false ∧ maxAge < now - d.last_activity
  · rw [if_pos hcond]
    obtain ⟨h1, h2⟩ := hcond
    simp [h1, h2]
  · rw [if_neg hcond]
    by_cases hb : d.is_active = false
    · have h2 : ¬ maxAge < now - d.last_activity := fun hc => hcond ⟨hb, hc⟩
      simp [hb, h2]
    · rw [Bool.not_eq_false] at hb
      simp [hb]

/-- C10: ending a known session changes only that session's active flag,
keeps both timestamps, removes nothing from the registry, leaves unrelated
sessions untouched, and is a no-op on an unknown identifier; consequently a
subsequent sweep measures the inactivity age of the ended session from its
`last_activity` timestamp, never from the moment `end_session` was
called. -/
theorem end_session_frame_conditions (reg : Registry) (sid : String) :
    ((end_session reg sid).map Prod.fst = reg.map Prod.fst)
    ∧ (∀ j, j ≠ sid → dictGet (end_session reg sid) j = dictGet reg j)
    ∧ (∀ d, dictGet reg sid = some d →
        dictGet (end_session reg sid) sid
          = some ⟨d.created_at, d.last_activity, false⟩)
    ∧ (dictGet reg sid = none → end_session reg sid = reg)
    ∧ (∀ d now maxAge, (reg.map Prod.fst).Nodup →
        dictGet reg sid = some d →
        (dictGet (cleanup_inactive_sessions (end_session reg sid) now maxAge)
            sid = none
          ↔ maxAge < now - d.last_activity)) := by
  refine ⟨end_session_keys reg sid, ?_, ?_, ?_, ?_⟩
  · intro j hj
    unfold end_session
    cases he : dictGet reg sid with
    | none => rfl
    | some e => exact dictGet_dictSet_ne reg sid j _ (fun hc => hj hc.symm)
  · intro d h
    exact end_session_lookup_self reg sid d h
  · intro h
    unfold end_session
    rw [h]
  · intro d now maxAge hnd h
    have hkeys : ((end_session reg sid).map Prod.fst).Nodup := by
      rw [end_session_keys]; exact hnd
    have hlook := end_session_lookup_self reg sid d h
    rw [cleanup_lookup (end_session reg sid) sid _ now maxAge hkeys hlook]
    by_cases hc : maxAge < now - d.last_activity
    · simp [hc]
    · simp [hc]

/-- C7 counterexample: a session created (so last touched) at time 0 and
marked ended at wall-clock time T = 100 is already removed by a sweep with
maxAge M = 50 run at time T + M - 1 = 149, because the code measures
inactivity from `last_activity`, not from when `end_session` happened; the
claim asserts it would still be retained at that moment. -/
theorem sweep_removes_before_end_time_plus_max_age :
    dictGet (applyRegOps []
        [RegOp.create "s" 0, RegOp.close "s" 100, RegOp.sweep 149 50]) "s"
      = none
    ∧ (100 : ℚ) + 50 - 1 = 149 := by
  constructor
  · norm_num [applyRegOps, applyRegOp, create_session, end_session,
      cleanup_inactive_sessions, dictSet, dictGet, List.filter]
  · norm_num

/-- C7 amended: the sweep removes exactly the inactive sessions whose
inactivity — measured from `last_activity`, not from when the session was
marked ended — exceeds maxAge, and never removes an active session.  In
particular an inactive session last touched at time L is removed by a sweep
at L + maxAge + ε (ε > 0) and retained by a sweep at L + maxAge - ε. -/
theorem sweep_correctness (reg : Registry) (sid : String) (d : SessionData)
    (maxAge ε : ℚ) (hnd : (reg.map Prod.fst).Nodup)
    (h : dictGet reg sid = some d) :
    (∀ now, dictGet (cleanup_inactive_sessions reg now maxAge) sid
        = if d.is_active = false ∧ maxAge < now - d.last_activity
          then none else some d)
    ∧ (d.is_active = false → 0 < ε →
        dictGet (cleanup_inactive_sessions reg
            (d.last_activity + maxAge + ε) maxAge) sid = none
        ∧ dictGet (cleanup_inactive_sessions reg
            (d.last_activity + maxAge - ε) maxAge) sid = some d)
    ∧ (d.is_active = true →
        ∀ now, dictGet (cleanup_inactive_sessions reg now maxAge) sid
          = some d) := by
  refine ⟨fun now => cleanup_lookup reg sid d now maxAge hnd h, ?_, ?_⟩
  · intro hia hε
    constructor
    · rw [cleanup_lookup reg sid d _ maxAge hnd h, if_pos]
      exact ⟨hia, by linarith⟩
    · rw [cleanup_lookup reg sid d _ maxAge hnd h, if_neg]
      intro hc
      linarith [hc.2]
  · intro hia now
    rw [cleanup_lookup reg sid d now maxAge hnd h, if_neg]
    intro hc
    rw [hia] at hc
    cases hc.1

theorem sweep_correctness_witness :
    (∀ now, dictGet (cleanup_inactive_sessions regEnded now 30) "s"
        = if dEnded.is_active = false ∧ 30 < now - dEnded.last_activity
          then none else some dEnded)
    ∧ (dEnded.is_active = false → 0 < (1 : ℚ) →
        dictGet (cleanup_inactive_sessions regEnded
            (dEnded.last_activity + 30 + 1) 30) "s" = none
        ∧ dictGet (cleanup_inactive_sessions regEnded
            (dEnded.last_activity + 30 - 1) 30) "s" = some dEnded)
    ∧ (dEnded.is_active = true →
        ∀ now, dictGet (cleanup_inactive_sessions regEnded now 30) "s"
          = some dEnded) :=
  sweep_correctness regEnded "s" dEnded 30 1 (by simp [regEnded])
    (by simp [regEnded, dictGet])

/-! ## Conversation-history theorems -/

theorem exchangeHistory_parity (h : History) (u a : String)
    (hinv : h.length % 2 = 0 ∧ h.length ≤ 10) :
    (exchangeHistory h u a).length % 2 = 0
    ∧ (exchangeHistory h u a).length ≤ 10 := by
  obtain ⟨he, hle⟩ := hinv
  unfold exchangeHistory
  by_cases hc : 10 < (h ++ [(⟨"user", u⟩ : Turn), ⟨"assistant", a⟩]).length
  · rw [if_pos hc]
    simp only [List.length_drop, List.length_append, List.length_cons,
      List.length_nil] at *
    omega
  · rw [if_neg hc]
    simp only [List.length_append, List.length_cons, List.length_nil] at *
    omega

theorem runExchanges_invariant (sid : String) (xs : List (String × String)) :
    ∀ store : LLMStore,
      ((dictGet store sid).getD []).length % 2 = 0 →
      ((dictGet store sid).getD []).length ≤ 10 →
      ((dictGet (runExchanges sid store xs) sid).getD []).length % 2 = 0
      ∧ ((dictGet (runExchanges sid store xs) sid).getD []).length ≤ 10 := by
  induction xs with
  | nil => intro store h1 h2; exact ⟨h1, h2⟩
  | cons p rest ih =>
    intro store h1 h2
    have hstep : runExchanges sid store (p :: rest)
        = runExchanges sid ((generate_openai_response store sid p.1 p.2).2)
            rest := rfl
    rw [hstep]
    have hget : (dictGet ((generate_openai_response store sid p.1 p.2).2)
          sid).getD []
        = exchangeHistory ((dictGet store sid).getD []) p.1 p.2 := by
      simp [generate_openai_response, dictGet_dictSet_self]
    apply ih
    · rw [hget]
      exact (exchangeHistory_parity _ _ _ ⟨h1, h2⟩).1
    · rw [hget]
      exact (exchangeHistory_parity _ _ _ ⟨h1, h2⟩).2

/-- C2: starting from no stored history for the session, any sequence of
completed exchanges (each exchange appends one user and one assistant turn
inside the generation call, then trims to the last 10 messages) leaves the
stored conversation history with even length at most 10; every prefix of a
sequence is itself a sequence, so the bound holds after every exchange. -/
theorem history_length_invariant (sid : String) (xs : List (String × String)) :
    ((dictGet (runExchanges sid [] xs) sid).getD []).length % 2 = 0
    ∧ ((dictGet (runExchanges sid [] xs) sid).getD []).length ≤ 10 :=
  runExchanges_invariant sid xs [] (by simp [dictGet]) (by simp [dictGet])

/-- C3 counterexample: one successful generation call changes the stored
conversation history — the store for session `"s"` is empty before the call
and holds the user and assistant turns afterwards — so generation is not
side-effect-free with respect to history, and no separate caller-side
append exists to be sequenced after the audio send. -/
theorem generation_mutates_history_cex :
    dictGet ([] : LLMStore) "s" = none
    ∧ (generate_openai_response [] "s" "hello" "hi there").2
        = [("s", [⟨"user", "hello"⟩, ⟨"assistant", "hi there"⟩])]
    ∧ (generate_openai_response [] "s" "hello" "hi there").2
        ≠ ([] : LLMStore) := by
  refine ⟨rfl, rfl, ?_⟩
  intro hc
  simp [generate_openai_response, dictSet, exchangeHistory] at hc

/-- C3 amended: the generation operation itself performs the history
update — it returns the injected reply and stores the history extended by
the user and assistant turns (trimmed to the cap) under the session key —
and this mutation is committed before any reply audio is sent: when
synthesis fails after a successful generation, the orchestrator has sent
nothing yet the history store is already updated. -/
theorem generation_updates_history_itself (store : LLMStore)
    (sid userInput replyText : String) :
    (generate_openai_response store sid userInput replyText).1 = replyText
    ∧ (generate_openai_response store sid userInput replyText).2
        = dictSet store sid
            (exchangeHistory ((dictGet store sid).getD []) userInput replyText)
    ∧ (∀ (now : ℚ) (st : OrchState) (fs : FrameScript) (t : Transcript)
          (reply e : String),
        fs.procRes = .ok () → fs.transRes = .ok t → t.is_final = true →
        fs.genRes = .ok reply → fs.synthRes = .error e →
        processFrame sid now st fs =
          .failed ("Voice synthesis failed: " ++ e)
            ⟨st.registry,
             (generate_openai_response st.llmStore sid t.text reply).2⟩
            [.conditioner, .transcription, .generation, .synthesis]) := by
  refine ⟨rfl, rfl, ?_⟩
  intro now st fs t reply e hp ht hf hg hs
  simp [processFrame, hp, ht, hf, hg, hs]

/-! ## Health aggregation theorems -/

theorem allHealthy_iff (cs : List ComponentReport) :
    allHealthy cs = true
      ↔ ∀ c ∈ cs, ∀ s, c.statusField = some s → s = "healthy" := by
  unfold allHealthy
  rw [List.all_eq_true]
  constructor
  · intro h c hc s hs
    have hb := h c hc
    rw [hs] at hb
    simpa using hb
  · intro h c hc
    cases hst : c.statusField with
    | none => simp [hst]
    | some s =>
      simp only [hst, decide_eq_true_eq]
      exact h c hc s hst

/-- C4 amended: the overall health verdict is `"healthy"` exactly when
every component that carries a `"status"` field reports `"healthy"` (any
other value, such as `"not_initialized"`, yields `"degraded"`); a component
without a `"status"` field — like the sessions counter — is skipped by the
verdict and does not degrade it; and the endpoint's verdict is `"healthy"`
precisely when all three providers are initialized. -/
theorem health_verdict_rule (cs : List ComponentReport) :
    (overallStatus cs = "healthy"
      ↔ ∀ c ∈ cs, ∀ s, c.statusField = some s → s = "healthy")
    ∧ (overallStatus cs = "healthy" ∨ overallStatus cs = "degraded")
    ∧ (∀ (a b c : Bool) (n : ℕ), healthCheckVerdict a b c n = "healthy"
        ↔ (a = true ∧ b = true ∧ c = true)) := by
  refine ⟨?_, ?_, ?_⟩
  · rw [← allHealthy_iff]
    unfold overallStatus
    by_cases hall : allHealthy cs = true
    · simp [hall]
    · simp [hall]
  · unfold overallStatus
    by_cases hall : allHealthy cs = true
    · simp [hall]
    · simp [hall]
  · intro a b c n
    cases a <;> cases b <;> cases c <;>
      simp [healthCheckVerdict, overallStatus, allHealthy, providerHealth,
        sessionsReport]

/-- C4 counterexample: with all three providers initialized the endpoint
reports `"healthy"` although the sessions component carries no `"status"`
field at all — a component with an absent status does not make the overall
result `"degraded"`, contrary to the claim. -/
theorem health_verdict_cex :
    healthCheckVerdict true true true 3 = "healthy"
    ∧ (sessionsReport 3).statusField = none := by
  constructor
  · simp [healthCheckVerdict, overallStatus, allHealthy, providerHealth,
      sessionsReport]
  · rfl

/-! ## Orchestrator theorems -/

/-- C1: for a received frame whose transcription succeeds with a non-final
result, the loop body invokes neither the generation nor the synthesis
stage, sends nothing to the client, refreshes the session's last-activity
via `update_session`, leaves the history store untouched, and the
connection loop simply continues with the next event. -/
theorem finality_gating (sid : String) (now : ℚ) (st : OrchState)
    (fs : FrameScript) (t : Transcript) (hp : fs.procRes = .ok ())
    (ht : fs.transRes = .ok t) (hf : t.is_final = false) :
    processFrame sid now st fs
      = .continueLoop ⟨update_session st.registry sid now, st.llmStore⟩ []
          [.conditioner, .transcription]
    ∧ Stage.generation ∉ invokedStages sid now st fs
    ∧ Stage.synthesis ∉ invokedStages sid now st fs
    ∧ (∀ rest, runConn sid st ((now, .recv fs) :: rest)
        = runConn sid ⟨update_session st.registry sid now, st.llmStore⟩
            rest) := by
  have hpf : processFrame sid now st fs
      = .continueLoop ⟨update_session st.registry sid now, st.llmStore⟩ []
          [.conditioner, .transcription] := by
    simp [processFrame, hp, ht, hf]
  refine ⟨hpf, ?_, ?_, ?_⟩
  · simp [invokedStages, hpf]
  · simp [invokedStages, hpf]
  · intro rest
    simp [runConn, hpf]

theorem finality_gating_witness :
    processFrame "s" 7 stS fsNonFinal
      = .continueLoop ⟨update_session stS.registry "s" 7, stS.llmStore⟩ []
          [.conditioner, .transcription]
    ∧ Stage.generation ∉ invokedStages "s" 7 stS fsNonFinal
    ∧ Stage.synthesis ∉ invokedStages "s" 7 stS fsNonFinal
    ∧ (∀ rest, runConn "s" stS ((7, .recv fsNonFinal) :: rest)
        = runConn "s" ⟨update_session stS.registry "s" 7, stS.llmStore⟩
            rest) :=
  finality_gating "s" 7 stS fsNonFinal tNonFinal rfl rfl rfl

theorem processFrame_failed_msg (sid : String) (now : ℚ) (st : OrchState)
    (fs : FrameScript) (msg : String) (st2 : OrchState) (inv : List Stage)
    (h : processFrame sid now st fs = .failed msg st2 inv) :
    ∃ cause,
      msg = "Audio processing failed: " ++ cause
      ∨ msg = "Speech recognition failed: " ++ cause
      ∨ msg = "Language model processing failed: " ++ cause
      ∨ msg = "Voice synthesis failed: " ++ cause := by
  obtain ⟨pr, tr, gr, sr⟩ := fs
  cases pr with
  | error e =>
    simp only [processFrame, FrameOutcome.failed.injEq] at h
    exact ⟨e, Or.inl h.1.symm⟩
  | ok u =>
    cases tr with
    | error e =>
      simp only [processFrame, FrameOutcome.failed.injEq] at h
      exact ⟨e, Or.inr (Or.inl h.1.symm)⟩
    | ok t =>
      by_cases hf : t.is_final = true
      · cases gr with
        | error e =>
          simp only [processFrame, hf, if_true, FrameOutcome.failed.injEq]
            at h
          exact ⟨e, Or.inr (Or.inr (Or.inl h.1.symm))⟩
        | ok reply =>
          cases sr with
          | error e =>
            simp only [processFrame, hf, if_true, FrameOutcome.failed.injEq]
              at h
            exact ⟨e, Or.inr (Or.inr (Or.inr h.1.symm))⟩
          | ok audioResp =>
            simp [processFrame, hf] at h
      · rw [Bool.not_eq_true] at hf
        simp [processFrame, hf] at h

/-- C5 amended: when any stage of the loop body raises, the client is sent
exactly one error object of the form `{"error": msg}` — it carries no
category/type field — whose message text identifies the failed stage by its
wrapper prefix; the connection then closes with internal-error code 1011
and the `finally` block leaves the session inactive. -/
theorem stage_failure_error_reporting (sid : String) (now : ℚ)
    (st : OrchState) (fs : FrameScript) (msg : String) (st2 : OrchState)
    (inv : List Stage) (rest : List (ℚ × Event))
    (h : processFrame sid now st fs = .failed msg st2 inv) :
    runConn sid st ((now, .recv fs) :: rest)
      = ([.errJson msg none],
         .closed 1011 ⟨end_session st2.registry sid, st2.llmStore⟩)
    ∧ (runConn sid st ((now, .recv fs) :: rest)).1.countP Outgoing.isErr = 1
    ∧ (∀ d, dictGet (end_session st2.registry sid) sid = some d →
        d.is_active = false)
    ∧ (∃ cause,
        msg = "Audio processing failed: " ++ cause
        ∨ msg = "Speech recognition failed: " ++ cause
        ∨ msg = "Language model processing failed: " ++ cause
        ∨ msg = "Voice synthesis failed: " ++ cause) := by
  have hrun : runConn sid st ((now, .recv fs) :: rest)
      = ([.errJson msg none],
         .closed 1011 ⟨end_session st2.registry sid, st2.llmStore⟩) := by
    simp [runConn, h]
  refine ⟨hrun, ?_, ?_, ?_⟩
  · rw [hrun]
    simp [Outgoing.isErr]
  · intro d hd
    exact end_session_inactive st2.registry sid d hd
  · exact processFrame_failed_msg sid now st fs msg st2 inv h

theorem stage_failure_error_reporting_witness :
    runConn "s" stS [(3, .recv fsTransFail)]
      = ([.errJson "Speech recognition failed: boom" none],
         .closed 1011 ⟨end_session stS.registry "s", stS.llmStore⟩)
    ∧ (runConn "s" stS [(3, .recv fsTransFail)]).1.countP Outgoing.isErr = 1
    ∧ (∀ d, dictGet (end_session stS.registry "s") "s" = some d →
        d.is_active = false)
    ∧ (∃ cause,
        "Speech recognition failed: boom"
            = "Audio processing failed: " ++ cause
        ∨ "Speech recognition failed: boom"
            = "Speech recognition failed: " ++ cause
        ∨ "Speech recognition failed: boom"
            = "Language model processing failed: " ++ cause
        ∨ "Speech recognition failed: boom"
            = "Voice synthesis failed: " ++ cause) :=
  stage_failure_error_reporting "s" 3 stS fsTransFail
    "Speech recognition failed: boom" stS [.conditioner, .transcription] []
    (by rfl)

/-- C5 counterexample: a transcription fault makes the endpoint send the
single payload `{"error": "Speech recognition failed: boom"}` — no sent
message carries a `"type"` category field, so the claimed error shape
`{"error": msg, "type": category}` never reaches the client. -/
theorem error_payload_has_no_type_field :
    (runConn "s" stS [(3, .recv fsTransFail)]).1
      = [.errJson "Speech recognition failed: boom" none]
    ∧ (∀ emsg cat, Outgoing.errJson emsg (some cat)
        ∉ (runConn "s" stS [(3, .recv fsTransFail)]).1) := by
  have h1 : (runConn "s" stS [(3, .recv fsTransFail)]).1
      = [.errJson "Speech recognition failed: boom" none] := by rfl
  refine ⟨h1, ?_⟩
  intro emsg cat hmem
  rw [h1] at hmem
  simp at hmem

theorem processFrame_benign (sid : String) (now : ℚ) (st : OrchState)
    (fs : FrameScript) (hb : fs.benign = true) :
    ∃ st2 sent inv,
      processFrame sid now st fs = .continueLoop st2 sent inv
      ∧ ∀ m ∈ sent, m.isErr = false := by
  obtain ⟨pr, tr, gr, sr⟩ := fs
  unfold FrameScript.benign at hb
  cases pr with
  | error e => simp [exceptOk] at hb
  | ok u =>
    cases tr with
    | error e => simp [exceptOk] at hb
    | ok t =>
      by_cases hf : t.is_final = true
      · cases gr with
        | error e => simp [exceptOk, hf] at hb
        | ok reply =>
          cases sr with
          | error e => simp [exceptOk, hf] at hb
          | ok audioResp =>
            refine ⟨⟨update_session st.registry sid now,
                (generate_openai_response st.llmStore sid t.text reply).2⟩,
              [Outgoing.audio audioResp],
              [.conditioner, .transcription, .generation, .synthesis],
              ?_, ?_⟩
            · simp [processFrame, hf]
            · intro m hm
              rw [List.mem_singleton] at hm
              subst hm
              rfl
      · rw [Bool.not_eq_true] at hf
        refine ⟨⟨update_session st.registry sid now, st.llmStore⟩, [],
          [.conditioner, .transcription], ?_, ?_⟩
        · simp [processFrame, hf]
        · intro m hm
          cases hm

/-- C6: over any event script whose received frames raise no stage
exception, the endpoint never sends an error payload; whenever the
connection closes it closes with the normal-closure code 1000 and the
registry afterwards shows the session inactive; and as soon as the script
contains an idle timeout the connection does close. -/
theorem idle_timeout_closes_normally (sid : String) :
    ∀ (evs : List (ℚ × Event)) (st : OrchState),
      (∀ p ∈ evs, Event.benign p.2 = true) →
      (∀ m ∈ (runConn sid st evs).1, m.isErr = false)
      ∧ (∀ code st2, (runConn sid st evs).2 = .closed code st2 →
          code = 1000
          ∧ (∀ d, dictGet st2.registry sid = some d → d.is_active = false))
      ∧ ((∃ p ∈ evs, p.2 = Event.timeout) →
          ∃ st2, (runConn sid st evs).2 = .closed 1000 st2) := by
  intro evs
  induction evs with
  | nil =>
    intro st _hben
    refine ⟨?_, ?_, ?_⟩
    · intro m hm
      cases hm
    · intro code st2 h
      cases h
    · intro hex
      obtain ⟨p, hp, _⟩ := hex
      cases hp
  | cons q rest ih =>
    intro st hben
    obtain ⟨now, ev⟩ := q
    have hrest : ∀ p ∈ rest, Event.benign p.2 = true :=
      fun p hp => hben p (List.mem_cons_of_mem _ hp)
    cases ev with
    | timeout =>
      refine ⟨?_, ?_, ?_⟩
      · intro m hm
        simp [runConn] at hm
      · intro code st2 h
        simp only [runConn, ConnStatus.closed.injEq] at h
        obtain ⟨hcode, hstf⟩ := h
        subst hstf
        refine ⟨hcode.symm, ?_⟩
        intro d hd
        exact end_session_inactive st.registry sid d hd
      · intro _hex
        exact ⟨⟨end_session st.registry sid, st.llmStore⟩, rfl⟩
    | recv fs =>
      have hbf : fs.benign = true :=
        hben (now, Event.recv fs) (List.mem_cons_self _ _)
      obtain ⟨st2, sent, inv, hpf, hsent⟩ :=
        processFrame_benign sid now st fs hbf
      have hr1 : (runConn sid st ((now, Event.recv fs) :: rest)).1
          = sent ++ (runConn sid st2 rest).1 := by
        simp [runConn, hpf]
      have hr2 : (runConn sid st ((now, Event.recv fs) :: rest)).2
          = (runConn sid st2 rest).2 := by
        simp [runConn, hpf]
      refine ⟨?_, ?_, ?_⟩
      · intro m hm
        rw [hr1, List.mem_append] at hm
        rcases hm with hm | hm
        · exact hsent m hm
        · exact ((ih st2 hrest).1) m hm
      · intro code stf h
        rw [hr2] at h
        exact ((ih st2 hrest).2.1) code stf h
      · intro hex
        obtain ⟨p, hp, hpt⟩ := hex
        rcases List.mem_cons.mp hp with rfl | hp2
        · cases hpt
        · rw [hr2]
          exact ((ih st2 hrest).2.2) ⟨p, hp2, hpt⟩

theorem idle_timeout_closes_normally_witness :
    (∀ m ∈ (runConn "s" stS [(5, .recv fsNonFinal), (9, .timeout)]).1,
        m.isErr = false)
    ∧ (∀ code st2,
        (runConn "s" stS [(5, .recv fsNonFinal), (9, .timeout)]).2
          = .closed code st2 →
        code = 1000
        ∧ (∀ d, dictGet st2.registry "s" = some d → d.is_active = false))
    ∧ ((∃ p ∈ ([(5, .recv fsNonFinal), (9, .timeout)] : List (ℚ × Event)),
          p.2 = Event.timeout) →
        ∃ st2, (runConn "s" stS [(5, .recv fsNonFinal), (9, .timeout)]).2
          = .closed 1000 st2) :=
  idle_timeout_closes_normally "s" [(5, .recv fsNonFinal), (9, .timeout)]
    stS (by intro p hp; rcases List.mem_cons.mp hp with rfl | hp2 <;>
      first
        | rfl
        | (rcases List.mem_cons.mp hp2 with rfl | hp3 <;>
            first
              | rfl
              | cases hp3))

/-! ## Audio-conditioning theorems -/

theorem sum_sq_nonneg (xs : List ℝ) : 0 ≤ (xs.map fun x => x ^ 2).sum := by
  induction xs with
  | nil => simp
  | cons a l ih =>
    simp only [List.map_cons, List.sum_cons]
    exact add_nonneg (sq_nonneg a) ih

theorem meanSquare_nonneg (xs : List ℝ) : 0 ≤ meanSquare xs :=
  div_nonneg (sum_sq_nonneg xs) (Nat.cast_nonneg _)

theorem sum_sq_eq_zero (xs : List ℝ)
    (h : (xs.map fun x => x ^ 2).sum = 0) : ∀ x ∈ xs, x = 0 := by
  induction xs with
  | nil => intro x hx; cases hx
  | cons a l ih =>
    simp only [List.map_cons, List.sum_cons] at h
    have ha : a ^ 2 = 0 := by
      nlinarith [sq_nonneg a, sum_sq_nonneg l]
    have hl : (l.map fun x => x ^ 2).sum = 0 := by
      nlinarith [sq_nonneg a, sum_sq_nonneg l]
    intro x hx
    rcases List.mem_cons.mp hx with rfl | hx2
    · exact pow_eq_zero_iff two_ne_zero |>.mp ha
    · exact ih hl x hx2

theorem rms_eq_zero_iff (xs : List ℝ) : rms xs = 0 ↔ meanSquare xs = 0 := by
  unfold rms
  rw [Real.sqrt_eq_zero']
  constructor
  · intro h
    exact le_antisymm h (meanSquare_nonneg xs)
  · intro h
    exact le_of_eq h

theorem sum_map_mul_sq (xs : List ℝ) (c : ℝ) :
    (xs.map fun x => (x * c) ^ 2).sum
      = c ^ 2 * (xs.map fun x => x ^ 2).sum := by
  induction xs with
  | nil => simp
  | cons a l ih =>
    simp only [List.map_cons, List.sum_cons, ih]
    ring

theorem meanSquare_map_mul (xs : List ℝ) (c : ℝ) :
    meanSquare (xs.map fun x => x * c) = c ^ 2 * meanSquare xs := by
  unfold meanSquare
  rw [List.map_map, List.length_map]
  have hcomp : ((fun x => x ^ 2) ∘ fun x => x * c) = fun x => (x * c) ^ 2 :=
    rfl
  rw [hcomp, sum_map_mul_sq, mul_div_assoc]

theorem rms_map_mul (xs : List ℝ) (c : ℝ) (hc : 0 ≤ c) :
    rms (xs.map fun x => x * c) = c * rms xs := by
  unfold rms
  rw [meanSquare_map_mul, Real.sqrt_mul (sq_nonneg c), Real.sqrt_sq hc]

theorem clipSample_eq_self (x : ℝ) (h : |x| ≤ 1) : clipSample x = x := by
  unfold clipSample
  rw [abs_le] at h
  rw [min_eq_right h.2, max_eq_right h.1]

theorem targetRms_pos : 0 < targetRms := by
  unfold targetRms
  norm_num

/-- C8: when the gated buffer has positive RMS, the AGC scales every sample
by `targetRms / rms` and clips to [-1, 1], and when no scaled sample leaves
[-1, 1] the output RMS is exactly the target 0.2 (floats idealized as
reals); a buffer whose RMS is zero consists of zero samples only and is
returned unchanged. -/
theorem agc_gain_law (xs : List ℝ) :
    (0 < rms xs → (∀ x ∈ xs, |x * (targetRms / rms xs)| ≤ 1) →
      rms (apply_agc xs) = targetRms)
    ∧ (rms xs = 0 → apply_agc xs = xs) := by
  constructor
  · intro hr hcl
    unfold apply_agc
    rw [if_pos hr]
    have hmap : (xs.map fun x => x * (targetRms / rms xs)).map clipSample
        = xs.map fun x => x * (targetRms / rms xs) := by
      rw [List.map_map]
      apply List.map_congr_left
      intro a ha
      exact clipSample_eq_self _ (hcl a ha)
    rw [hmap,
      rms_map_mul xs _ (le_of_lt (div_pos targetRms_pos hr)),
      div_mul_cancel₀ _ (ne_of_gt hr)]
  · intro h0
    unfold apply_agc
    rw [if_neg (by rw [h0]; exact lt_irrefl 0)]
    have hz : ∀ x ∈ xs, x = 0 := by
      have hm : meanSquare xs = 0 := (rms_eq_zero_iff xs).mp h0
      unfold meanSquare at hm
      cases xs with
      | nil => intro x hx; cases hx
      | cons a l =>
        have hlen : (((a :: l).length : ℕ) : ℝ) ≠ 0 := by
          simp only [List.length_cons]
          push_cast
          positivity
        have hsum : ((a :: l).map fun x => x ^ 2).sum = 0 := by
          rcases div_eq_zero_iff.mp hm with h | h
          · exact h
          · exact absurd h hlen
        exact sum_sq_eq_zero _ hsum
    have : xs.map clipSample = xs.map id := by
      apply List.map_congr_left
      intro a ha
      rw [hz a ha]
      unfold clipSample
      norm_num
    rw [this, List.map_id]

/-- C9: evaluating the conditioner at the failing input.  The shape checks
reject a byte length that is not a multiple of the sample width times the
channel count, as the claim says, but the success half of the claim fails
on the code: a well-shaped buffer (8 bytes = two float32 samples, mono) is
also rejected, with the read-only assignment error raised by
`_reduce_noise`'s in-place write on the `np.frombuffer` view of the
received `bytes` — `process` never returns audio for any input. -/
theorem process_always_raises :
    process 1 8 (fun _ => (0 : ℝ))
      = .error "assignment destination is read-only"
    ∧ (8 : ℕ) % (sampleWidth * 1) = 0
    ∧ process 1 6 (fun _ => (0 : ℝ))
      = .error "buffer size must be a multiple of element size"
    ∧ process 2 12 (fun _ => (0 : ℝ)) = .error "cannot reshape array"
    ∧ (∀ (channels byteLen : ℕ) (decode : ℕ → ℝ), ∃ msg,
        process channels byteLen decode = .error msg) := by
  refine ⟨rfl, rfl, rfl, rfl, ?_⟩
  intro channels byteLen decode
  unfold process
  by_cases h1 : byteLen % sampleWidth ≠ 0
  · rw [if_pos h1]
    exact ⟨_, rfl⟩
  · rw [if_neg h1]
    by_cases h2 : channels = 2 ∧ (byteLen / sampleWidth) % 2 ≠ 0
    · rw [if_pos h2]
      exact ⟨_, rfl⟩
    · rw [if_neg h2]
      exact ⟨_, rfl⟩
